import Mathlib

/-
  Verification development for the VISIT-REPORT browser application.

  Shallow embedding of the data model and the operations of the repository:
  the report record and its points (src/types.ts), the client-side image
  downscaling (src/components/CameraModal.tsx, compressImageFile), the
  Firestore gateway (src/services/dbService.ts), the export renderers
  (src/services/pdfService.ts and src/services/docxService.ts), the
  debounced autosave controller (App component, src/unnamed/part_001),
  and the ownership gating of the editor (src/components/ReportEditor.tsx).

  Machine reals of the source (JavaScript numbers) are modelled as
  rationals; pixel dimensions of bitmaps are integers, so theorems about
  image geometry take natural-number inputs and cast them. Asynchronous
  calls that can reject are modelled with Option and Except, and the
  external services (Firestore, Storage, the HTML canvas) are oracles
  passed in as function arguments.
-/

namespace VisitReport

/-- Data model from src/types.ts: one observation entry of a report,
free text plus the storage paths of its attached images. -/
structure ReportPoint where
  id : String
  text : String
  imagePaths : List String
deriving DecidableEq, Repr

/-- Data model from src/types.ts: a top-level report record owned by one
user, with an ordered sequence of points. -/
structure Report where
  id : String
  userId : String
  userEmail : Option String
  title : String
  area : String
  createdAt : String
  points : List ReportPoint
deriving DecidableEq, Repr

/-! ## Image compression (src/components/CameraModal.tsx, compressImageFile)

The bounding-box computation of compressImageFile, lines 138-152: the
bitmap is left alone when it fits in the 800 times 800 box, otherwise the
larger dimension is clamped to 800 and the other is scaled by the same
factor. The subsequent canvas assignment truncates the scaled dimension
to an integer; the rational value computed here is the exact value the
code assigns before that truncation. -/

def MAX_WIDTH : ℚ := 800

def MAX_HEIGHT : ℚ := 800

/-- Transcription of the dimension computation in compressImageFile. -/
def compressDims (width height : ℚ) : ℚ × ℚ :=
  if width > height then
    if width > MAX_WIDTH then (MAX_WIDTH, height * (MAX_WIDTH / width)) else (width, height)
  else
    if height > MAX_HEIGHT then (width * (MAX_HEIGHT / height), MAX_HEIGHT) else (width, height)

/-- C5: for every input bitmap whose larger dimension exceeds the
800-pixel cap, compressImageFile yields dimensions whose larger axis
equals the cap, whose other axis preserves the original aspect ratio
(exactly, before the integer truncation of the canvas assignment), and
whose both axes are at most the cap; inputs with both dimensions within
the cap are not resized. -/
theorem compressDims_bounding_box (w h : ℕ) (hw : 0 < w) (hh : 0 < h) :
    (800 < max w h →
      max (compressDims w h).1 (compressDims w h).2 = 800 ∧
      (compressDims w h).1 * (h : ℚ) = (compressDims w h).2 * (w : ℚ) ∧
      (compressDims w h).1 ≤ 800 ∧ (compressDims w h).2 ≤ 800) ∧
    (w ≤ 800 → h ≤ 800 → compressDims w h = ((w : ℚ), (h : ℚ))) := by
  have hW : (0 : ℚ) < (w : ℚ) := by exact_mod_cast hw
  have hH : (0 : ℚ) < (h : ℚ) := by exact_mod_cast hh
  constructor
  · intro hbig
    have hbig' : (800 : ℚ) < max (w : ℚ) (h : ℚ) := by
      rw [← Nat.cast_max]; exact_mod_cast hbig
    unfold compressDims MAX_WIDTH MAX_HEIGHT
    split_ifs with h1 h2 h3
    · -- width larger and above the cap
      have hle : (h : ℚ) * (800 / (w : ℚ)) ≤ 800 := by
        have heq : (h : ℚ) * (800 / (w : ℚ)) = 800 * (h : ℚ) / (w : ℚ) := by ring
        rw [heq, div_le_iff₀ hW]
        nlinarith
      refine ⟨max_eq_left hle, ?_, le_refl _, hle⟩
      field_simp
      ring
    · -- width larger but within the cap: contradicts the hypothesis
      exfalso
      rcases max_cases (w : ℚ) (h : ℚ) with ⟨hm, _⟩ | ⟨hm, _⟩ <;> rw [hm] at hbig' <;> linarith
    · -- height at least the width and above the cap
      have hle : (w : ℚ) * (800 / (h : ℚ)) ≤ 800 := by
        have heq : (w : ℚ) * (800 / (h : ℚ)) = 800 * (w : ℚ) / (h : ℚ) := by ring
        rw [heq, div_le_iff₀ hH]
        nlinarith
      refine ⟨max_eq_right hle, ?_, hle, le_refl _⟩
      field_simp
      ring
    · -- both within the cap: contradicts the hypothesis
      exfalso
      rcases max_cases (w : ℚ) (h : ℚ) with ⟨hm, _⟩ | ⟨hm, _⟩ <;> rw [hm] at hbig' <;> linarith
  · intro hwle hhle
    have hwle' : (w : ℚ) ≤ 800 := by exact_mod_cast hwle
    have hhle' : (h : ℚ) ≤ 800 := by exact_mod_cast hhle
    unfold compressDims MAX_WIDTH MAX_HEIGHT
    split_ifs with h1 h2 h3 <;> first | rfl | (exfalso; linarith)

/-- Witness for C5 at a concrete 1600 times 1000 bitmap. -/
theorem compressDims_bounding_box_witness :
    0 < 1600 ∧ 0 < 1000 ∧ 800 < max 1600 1000 ∧
      (max (compressDims 1600 1000).1 (compressDims 1600 1000).2 = 800 ∧
       (compressDims 1600 1000).1 * ((1000 : ℕ) : ℚ) =
         (compressDims 1600 1000).2 * ((1600 : ℕ) : ℚ) ∧
       (compressDims 1600 1000).1 ≤ 800 ∧ (compressDims 1600 1000).2 ≤ 800) :=
  ⟨by decide, by decide, by decide,
    (compressDims_bounding_box 1600 1000 (by decide) (by decide)).1 (by decide)⟩

/-! ## Document store gateway (src/services/dbService.ts)

getReports, lines 30-41: when the database handle is null (missing
configuration) it returns the empty list at once; when the query throws
it logs and returns the empty list. The query outcome is modelled as an
Except value passed in by the caller. -/

/-- Transcription of getReports: a null database handle or a rejected
query both collapse to the empty list. -/
def getReports (dbConfigured : Bool) (query : Except String (List Report)) : List Report :=
  if !dbConfigured then []
  else
    match query with
    | Except.ok docs => docs
    | Except.error _ => []

/-- C10: getReports never rejects. When the database is unconfigured or
the underlying query throws it resolves with the empty array, so a
caller cannot distinguish a failed or unconfigured load from a user with
zero reports. -/
theorem getReports_never_rejects (q : Except String (List Report)) (e : String) :
    getReports false q = [] ∧
    getReports true (Except.error e) = [] ∧
    getReports false q = getReports true (Except.ok []) ∧
    getReports true (Except.error e) = getReports true (Except.ok []) := by
  cases q <;> simp [getReports]

/-! ## Export filenames (src/services/pdfService.ts line 129,
src/services/docxService.ts line 73)

Both renderers build the download name from the title with the same
JavaScript expression: title.replace(non-alphanumeric, underscore)
followed by toLowerCase. Each transcription is kept separately so that
their agreement is a statement about the two source files. -/

/-- A character matched by the character class a-z, A-Z, 0-9 of the
regular expression used by both renderers. -/
def regexAlnum (c : Char) : Bool :=
  decide ((('a' ≤ c ∧ c ≤ 'z') ∨ ('A' ≤ c ∧ c ≤ 'Z') ∨ ('0' ≤ c ∧ c ≤ '9')))

/-- Transcription of the safeTitle expression of generatePdf. -/
def pdfSafeTitle (title : String) : String :=
  ⟨(title.data.map fun c => if regexAlnum c then c else '_').map Char.toLower⟩

/-- Transcription of the safeTitle expression of generateDocx. -/
def docxSafeTitle (title : String) : String :=
  ⟨(title.data.map fun c => if regexAlnum c then c else '_').map Char.toLower⟩

/-- Download name produced by generatePdf. -/
def pdfFileName (r : Report) : String :=
  "Report_" ++ pdfSafeTitle r.title ++ ".pdf"

/-- Download name produced by generateDocx. -/
def docxFileName (r : Report) : String :=
  "Report_" ++ docxSafeTitle r.title ++ ".docx"

/-- The per-character slug map both renderers implement: an ASCII
alphanumeric character is kept (lowercased), every other character is
replaced by one underscore. -/
def slugChar (c : Char) : Char :=
  if regexAlnum c then c.toLower else '_'

/-- C9: both exports are named Report_(slug of title) with their own
extension; the PDF and DOCX renderers derive the identical slug from the
same title, and the slug replaces each non-alphanumeric character of the
title by an underscore (lowercasing the rest), preserving length. -/
theorem export_filenames_agree (r : Report) :
    pdfSafeTitle r.title = docxSafeTitle r.title ∧
    pdfFileName r = "Report_" ++ pdfSafeTitle r.title ++ ".pdf" ∧
    docxFileName r = "Report_" ++ pdfSafeTitle r.title ++ ".docx" ∧
    (pdfSafeTitle r.title).data = r.title.data.map slugChar ∧
    (pdfSafeTitle r.title).length = r.title.length := by
  have hmap : ∀ t : String, (pdfSafeTitle t).data = t.data.map slugChar := by
    intro t
    show ((t.data.map fun c => if regexAlnum c then c else '_').map Char.toLower)
        = t.data.map slugChar
    rw [List.map_map]
    apply List.map_congr_left
    intro c _
    by_cases hc : regexAlnum c
    · simp [Function.comp, slugChar, hc]
    · simp only [Function.comp, slugChar, hc, if_neg, Bool.false_eq_true,
        not_false_eq_true, if_false]
      decide
  refine ⟨rfl, rfl, rfl, hmap r.title, ?_⟩
  show (pdfSafeTitle r.title).data.length = r.title.data.length
  rw [hmap r.title, List.length_map]

/-! ## Sync controller (App component, src/unnamed/part_001)

The debounce utility (lines 166-174) is a wrapper with one timeout cell;
a call on the same wrapper clears its previous timeout and schedules the
wrapped function with the new arguments after the wait. saveToDb (lines
257-268) skips the flush when the status captured by its closure is
saving (re-entrancy guard), otherwise marks saving, issues the
saveReport call and on resolution marks saved, or on rejection marks
unsaved and shows the error toast. updateReport (lines 272-281) stores
the new report, marks unsaved, and either cancels the pending debounced
call of the current wrapper and flushes at once (immediate) or debounces
the flush.

Two consequences of the React hooks follow and are both modelled.
First, state reads are snapshots of the render in which a handler was
created, so the status checked by the re-entrancy guard is the status at
entry to the event, not the value just written by setSyncStatus; the
model passes that captured status explicitly. Second, saveToDb is
memoized on [syncStatus] and debouncedSave is memoized on [saveToDb]
(line 270), so every change of the committed sync status recreates the
debounce wrapper with a fresh, empty timeout cell. A timer scheduled on
the previous wrapper is then orphaned: no later debouncedSave call and
no debouncedSave.cancel() can reach it, and it fires at its deadline
running the saveToDb whose closure the old wrapper captured. The state
therefore keeps the current wrapper slot (pending) and the list of
orphaned timers (orphans); the renders commit between events, so at the
start of every event the status captured by the current wrapper equals
the stored sync status. A non-immediate edit schedules on the current
wrapper; when the edit also changes the committed status (it sets
unsaved from a different status), the re-render replaces the wrapper and
the timer it holds moves to the orphan list. The asynchronous saveReport
call is split into a start step (the call is issued) and a resolve step
(the promise settles), so a state with a flush in flight is
representable; the flush entry points run with the current wrapper
cancelled or already fired, so they leave the timer slots unchanged. -/

inductive SyncStatus where
  | saved
  | saving
  | unsaved
deriving DecidableEq, Repr

/-- Fixed debounce delay of the autosave, in milliseconds. -/
def DEBOUNCE_MS : Nat := 1500

/-- Toast text shown by saveToDb when saveReport rejects. -/
def saveFailedToast : String := "Failed to save changes."

/-- State of the App component that the sync controller touches: the
active report copy, the sync status, the timer of the current debounce
wrapper (pending: its deadline, the status captured by the scheduled
closure, and its report argument), the timers of wrappers replaced by a
status change (orphans: same shape, unreachable by cancel or
reschedule), whether a saveReport call is in flight, and the observable
logs of issued saveReport calls and shown error toasts. -/
structure AppState where
  report : Report
  syncStatus : SyncStatus
  pending : Option (Nat × SyncStatus × Report)
  orphans : List (Nat × SyncStatus × Report)
  inFlight : Bool
  calls : List Report
  toasts : List String
  activeReportId : Option String
deriving DecidableEq, Repr

/-- First half of saveToDb: the re-entrancy guard, then setSyncStatus
saving and the saveReport call. The captured argument is the sync status
the closure of saveToDb reads. -/
def saveToDbStart (captured : SyncStatus) (r : Report) (s : AppState) : AppState :=
  if captured = SyncStatus.saving then s
  else { s with syncStatus := SyncStatus.saving, inFlight := true, calls := s.calls ++ [r] }

/-- Second half of saveToDb: the saveReport promise settles. Success
marks saved; rejection marks unsaved and appends the error toast. -/
def saveResolve (success : Bool) (s : AppState) : AppState :=
  if s.inFlight then
    if success then { s with syncStatus := SyncStatus.saved, inFlight := false }
    else { s with syncStatus := SyncStatus.unsaved, inFlight := false,
                  toasts := s.toasts ++ [saveFailedToast] }
  else s

/-- Transcription of updateReport: store the updated report, mark
unsaved, then either cancel the pending call of the current debounce
wrapper and flush at once (immediate), or schedule the debounced call
1500 ms from now on the current wrapper. When the committed status
changes with this edit (the captured status was not unsaved), the
re-render recreates debouncedSave and the timer just scheduled on the
old wrapper becomes an orphan; it stays in pending only when the status
was already unsaved, so the wrapper survives the render. -/
def updateReport (t : Nat) (immediate : Bool) (r : Report) (s : AppState) : AppState :=
  let captured := s.syncStatus
  let s1 := { s with report := r, syncStatus := SyncStatus.unsaved }
  if immediate then
    saveToDbStart captured r { s1 with pending := none }
  else
    if captured = SyncStatus.unsaved then
      { s1 with pending := some (t + DEBOUNCE_MS, captured, r) }
    else
      { s1 with pending := none,
                orphans := s1.orphans ++ [(t + DEBOUNCE_MS, captured, r)] }

/-- Closing the debounce window: enough time passes with no further
edit, so the pending call of the current wrapper, if any, fires. -/
def closeWindow (s : AppState) : AppState :=
  match s.pending with
  | none => s
  | some (_, captured, r) => saveToDbStart captured r { s with pending := none }

/-- Each listed timer fires in order: setTimeout runs the saveToDb whose
closure the wrapper of that timer captured. -/
def fireTimers : List (Nat × SyncStatus × Report) → AppState → AppState
  | [], s => s
  | (_, captured, r) :: rest, s => fireTimers rest (saveToDbStart captured r s)

/-- Orphaned timers all reach their deadlines: nothing can clear them,
so each fires its own saveToDb. -/
def fireOrphans (s : AppState) : AppState :=
  fireTimers s.orphans { s with orphans := [] }

/-- Transcription of handleBackFromEditor (lines 285-292): when leaving
the editor with unsaved changes, cancel the pending debounced call of
the current wrapper and flush once, then clear the active report. -/
def handleBackFromEditor (s : AppState) : AppState :=
  let captured := s.syncStatus
  let s1 :=
    if captured = SyncStatus.unsaved then
      saveToDbStart captured s.report { s with pending := none }
    else s
  { s1 with activeReportId := none }

/-- Concrete report used by the closed-form theorems below. -/
def reportA : Report :=
  { id := "report-1", userId := "user-1", userEmail := some "a@example.com",
    title := "Site A", area := "Center 1", createdAt := "2024-01-01",
    points := [] }

/-- Concrete report carrying the text of a later edit. -/
def reportB : Report :=
  { reportA with points := [{ id := "point-1", text := "final text", imagePaths := [] }] }

/-- Report as it stands after the first edit of a burst, with the
intermediate text. -/
def reportEdit1 : Report :=
  { reportA with points := [{ id := "point-1", text := "draft te", imagePaths := [] }] }

/-- Report as it stands after the second edit of the burst, with the
final text. -/
def reportEdit2 : Report :=
  { reportA with points := [{ id := "point-1", text := "draft text", imagePaths := [] }] }

/-- Quiescent app state: status saved, nothing pending, no orphaned
timer, nothing in flight. -/
def quietState : AppState :=
  { report := reportA, syncStatus := SyncStatus.saved, pending := none, orphans := [],
    inFlight := false, calls := [], toasts := [], activeReportId := some "report-1" }

/-- C1 (failing input): from the quiescent saved state, two rapid
non-immediate edits 300 ms apart do not coalesce into one persistence
call. The first edit schedules its timer and also flips the committed
status from saved to unsaved, so the re-render recreates debouncedSave
and orphans that timer; the second edit schedules on the fresh wrapper
and cannot cancel the orphan. At 1500 ms the orphan fires saveReport
with the intermediate report (its captured status saved passes the
guard), and at 1800 ms the live timer fires saveReport with the final
report: two calls where the claim requires exactly one carrying the
final text, the second issued while the first may still be in flight. -/
theorem debounce_orphaned_timer_double_save :
    (updateReport 300 false reportEdit2 (updateReport 0 false reportEdit1 quietState)).orphans =
      [(0 + DEBOUNCE_MS, SyncStatus.saved, reportEdit1)] ∧
    (updateReport 300 false reportEdit2 (updateReport 0 false reportEdit1 quietState)).pending =
      some (300 + DEBOUNCE_MS, SyncStatus.unsaved, reportEdit2) ∧
    (closeWindow (fireOrphans (updateReport 300 false reportEdit2
        (updateReport 0 false reportEdit1 quietState)))).calls =
      [reportEdit1, reportEdit2] ∧
    (fireOrphans (updateReport 300 false reportEdit2
        (updateReport 0 false reportEdit1 quietState))).inFlight = true ∧
    reportEdit1 ≠ reportEdit2 := by
  decide

/-- App state with a saveReport call in flight: the status delivered to
the handlers by the last render is saving. -/
def savingState : AppState :=
  { report := reportA, syncStatus := SyncStatus.saving, pending := none, orphans := [],
    inFlight := true, calls := [], toasts := [], activeReportId := some "report-1" }

/-- Counterexample for C2 as stated: with a flush in flight (sync state
saving), an immediate mutation issues no persistence call at all, so the
claim that it always issues its own call regardless of the sync state is
false. -/
theorem immediate_update_counterexample :
    ¬ ((updateReport 0 true reportB savingState).calls = savingState.calls ++ [reportB]) := by
  decide

/-- C2 amended: an immediate mutation cancels the pending debounced
call of the current debounce wrapper, but timers orphaned by an earlier
sync-state change are out of reach of debouncedSave.cancel() and survive
unchanged (and may still fire later); it issues its own persistence call
carrying the mutated report whenever no flush is in flight, while the
re-entrancy guard of saveToDb skips the call when the sync state at the
time of the event is saving. -/
theorem immediate_update_cancels_and_flushes (s : AppState) (t : Nat) (r : Report) :
    (updateReport t true r s).pending = none ∧
    (updateReport t true r s).orphans = s.orphans ∧
    (s.syncStatus ≠ SyncStatus.saving →
      (updateReport t true r s).calls = s.calls ++ [r] ∧
      (updateReport t true r s).syncStatus = SyncStatus.saving ∧
      (updateReport t true r s).report = r) ∧
    (s.syncStatus = SyncStatus.saving → (updateReport t true r s).calls = s.calls) := by
  by_cases hs : s.syncStatus = SyncStatus.saving <;>
    simp [updateReport, saveToDbStart, hs]

/-- App state holding one orphaned timer besides the quiescent data. -/
def orphanedState : AppState :=
  { quietState with syncStatus := SyncStatus.unsaved,
                    orphans := [(1500, SyncStatus.saved, reportEdit1)] }

/-- Witness for C2 amended: from a state with one orphaned timer, an
immediate mutation clears the current wrapper slot, issues exactly one
saveReport call with the mutated report, and leaves the orphaned timer
in place. -/
theorem immediate_update_cancels_and_flushes_witness :
    orphanedState.syncStatus ≠ SyncStatus.saving ∧
    (updateReport 0 true reportB orphanedState).pending = none ∧
    (updateReport 0 true reportB orphanedState).orphans = orphanedState.orphans ∧
    (updateReport 0 true reportB orphanedState).calls = orphanedState.calls ++ [reportB] :=
  ⟨by decide,
    (immediate_update_cancels_and_flushes orphanedState 0 reportB).1,
    (immediate_update_cancels_and_flushes orphanedState 0 reportB).2.1,
    ((immediate_update_cancels_and_flushes orphanedState 0 reportB).2.2.1 (by decide)).1⟩

/-- C3: a flush whose saveReport call rejects leaves the sync state
unsaved, appends the error toast, schedules no retry (the pending slot
is untouched by the failure), and the next attempt comes only from a
later local edit (which reschedules the debounce) or from navigating
away (handleBackFromEditor flushes again when unsaved). -/
theorem failed_flush_unsaved_no_retry (s : AppState) (r : Report)
    (hs : s.syncStatus ≠ SyncStatus.saving) :
    (saveResolve false (saveToDbStart s.syncStatus r s)).syncStatus = SyncStatus.unsaved ∧
    (saveResolve false (saveToDbStart s.syncStatus r s)).toasts =
      s.toasts ++ [saveFailedToast] ∧
    (saveResolve false (saveToDbStart s.syncStatus r s)).calls = s.calls ++ [r] ∧
    (saveResolve false (saveToDbStart s.syncStatus r s)).pending = s.pending ∧
    (saveResolve false (saveToDbStart s.syncStatus r s)).inFlight = false ∧
    (∀ t2 r2,
      (updateReport t2 false r2 (saveResolve false (saveToDbStart s.syncStatus r s))).pending =
        some (t2 + DEBOUNCE_MS, SyncStatus.unsaved, r2)) ∧
    (handleBackFromEditor (saveResolve false (saveToDbStart s.syncStatus r s))).calls =
      s.calls ++ [r] ++ [s.report] := by
  simp [saveToDbStart, if_neg hs, saveResolve, updateReport, handleBackFromEditor]

/-- App state with unsaved changes and nothing in flight. -/
def unsavedState : AppState :=
  { report := reportB, syncStatus := SyncStatus.unsaved, pending := none, orphans := [],
    inFlight := false, calls := [], toasts := [], activeReportId := some "report-1" }

/-- Witness for C3 at a concrete failing flush. -/
theorem failed_flush_unsaved_no_retry_witness :
    unsavedState.syncStatus ≠ SyncStatus.saving ∧
    (saveResolve false (saveToDbStart unsavedState.syncStatus reportB unsavedState)).syncStatus =
      SyncStatus.unsaved ∧
    (saveResolve false (saveToDbStart unsavedState.syncStatus reportB unsavedState)).toasts =
      unsavedState.toasts ++ [saveFailedToast] ∧
    (saveResolve false (saveToDbStart unsavedState.syncStatus reportB unsavedState)).pending =
      unsavedState.pending :=
  ⟨by decide,
    (failed_flush_unsaved_no_retry unsavedState reportB (by decide)).1,
    (failed_flush_unsaved_no_retry unsavedState reportB (by decide)).2.1,
    (failed_flush_unsaved_no_retry unsavedState reportB (by decide)).2.2.2.1⟩

/-! ## Editor ownership gating (src/components/ReportEditor.tsx) and the
image upload of one point (ReportPointCard in src/components/CameraModal.tsx)

Every mutation entry point of the editor passes through handleLocalUpdate,
which returns without effect unless the viewer id equals the stored owner
id of the local report; addPoint, updatePoint, removePoint and the image
upload of the point card additionally guard themselves. The upload of a
batch of files compresses and uploads each file (modelled by an oracle
returning the storage path, or none on failure), awaits all of them, and
only then applies one immediate updatePoint appending every new path. -/

inductive ReportField where
  | title
  | area
  | userEmail
deriving DecidableEq, Repr

/-- Field assignment used by updateField (title, area and the other
fields outside points, id, createdAt and userId). -/
def setField : ReportField → String → Report → Report
  | ReportField.title, v, r => { r with title := v }
  | ReportField.area, v, r => { r with area := v }
  | ReportField.userEmail, v, r => { r with userEmail := some v }

/-- Partial point update, as the Partial ReportPoint argument of
updatePoint: absent fields keep their value. -/
structure PointPatch where
  text : Option String := none
  imagePaths : Option (List String) := none
deriving DecidableEq, Repr

/-- Spread-merge of a partial point update into a point. -/
def applyPatch (patch : PointPatch) (p : ReportPoint) : ReportPoint :=
  { p with text := patch.text.getD p.text,
           imagePaths := patch.imagePaths.getD p.imagePaths }

/-- Editor state: the local mutable copy of the report and the log of
onUpdateReport calls it has issued (report argument, immediate flag). -/
structure EditorState where
  localReport : Report
  updates : List (Report × Bool)
deriving DecidableEq, Repr

/-- Transcription of handleLocalUpdate: a no-op unless the viewer is the
owner; otherwise store the updated report and forward it upward. -/
def handleLocalUpdate (uid : String) (r : Report) (immediate : Bool)
    (s : EditorState) : EditorState :=
  if s.localReport.userId = uid then
    { localReport := r, updates := s.updates ++ [(r, immediate)] }
  else s

/-- Transcription of updateField: merge one field and forward without
the immediate flag. -/
def updateField (uid : String) (f : ReportField) (v : String) (s : EditorState) :
    EditorState :=
  handleLocalUpdate uid (setField f v s.localReport) false s

/-- Transcription of addPoint: append an empty point, immediately. -/
def addPoint (uid : String) (newId : String) (s : EditorState) : EditorState :=
  if s.localReport.userId = uid then
    handleLocalUpdate uid
      { s.localReport with
        points := s.localReport.points ++ [{ id := newId, text := "", imagePaths := [] }] }
      true s
  else s

/-- Transcription of updatePoint: merge the patch into the point with
the given id. -/
def updatePoint (uid pid : String) (patch : PointPatch) (immediate : Bool)
    (s : EditorState) : EditorState :=
  if s.localReport.userId = uid then
    handleLocalUpdate uid
      { s.localReport with
        points := s.localReport.points.map fun p =>
          if p.id = pid then applyPatch patch p else p }
      immediate s
  else s

/-- Transcription of removePoint: drop the point, immediately. -/
def removePoint (uid pid : String) (s : EditorState) : EditorState :=
  if s.localReport.userId = uid then
    handleLocalUpdate uid
      { s.localReport with
        points := s.localReport.points.filter fun p => p.id != pid }
      true s
  else s

/-- Await of Promise.all over the per-file compress-and-upload chain:
the list of storage paths in file order, or none when any single upload
or compression rejects. -/
def mapAll (oracle : String → Option String) : List String → Option (List String)
  | [] => some []
  | f :: rest =>
      match oracle f, mapAll oracle rest with
      | some path, some paths => some (path :: paths)
      | _, _ => none

/-- Transcription of handleImageUpload of ReportPointCard: nothing
happens for an empty selection or a non-owner; otherwise all files are
compressed and uploaded, and only when every one succeeded is the point
patched once with all new paths appended. -/
def handleImageUpload (uid pid : String) (files : List String)
    (oracle : String → Option String) (s : EditorState) : EditorState :=
  if files = [] ∨ ¬ s.localReport.userId = uid then s
  else
    match s.localReport.points.find? (fun p => p.id == pid) with
    | none => s
    | some p =>
        match mapAll oracle files with
        | some newPaths =>
            updatePoint uid pid { imagePaths := some (p.imagePaths ++ newPaths) } true s
        | none => s

/-- C7: for a viewer whose id differs from the stored owner id, every
mutation entry point of the editor is a no-op: the local report and the
log of persistence-bound updates are unchanged. -/
theorem non_owner_mutations_inert (uid : String) (s : EditorState)
    (f : ReportField) (v : String) (newId pid : String) (patch : PointPatch)
    (immediate : Bool) (files : List String) (oracle : String → Option String)
    (h : s.localReport.userId ≠ uid) :
    updateField uid f v s = s ∧
    addPoint uid newId s = s ∧
    updatePoint uid pid patch immediate s = s ∧
    removePoint uid pid s = s ∧
    handleImageUpload uid pid files oracle s = s := by
  refine ⟨?_, ?_, ?_, ?_, ?_⟩ <;>
    simp [updateField, addPoint, updatePoint, removePoint, handleImageUpload,
      handleLocalUpdate, h]

/-- Editor state owned by another user, as a non-owner viewer sees it. -/
def viewedState : EditorState :=
  { localReport :=
      { id := "report-9", userId := "owner-9", userEmail := some "owner@example.com",
        title := "Their report", area := "Center 2", createdAt := "2024-02-02",
        points := [{ id := "point-1", text := "existing", imagePaths := ["img/a.jpg"] }] },
    updates := [] }

/-- Witness for C7: the viewer with id user-1 cannot mutate the report
owned by owner-9 through any entry point. -/
theorem non_owner_mutations_inert_witness :
    viewedState.localReport.userId ≠ "user-1" ∧
    (updateField "user-1" ReportField.title "hack" viewedState = viewedState ∧
     addPoint "user-1" "point-2" viewedState = viewedState ∧
     updatePoint "user-1" "point-1" { text := some "hack" } false viewedState = viewedState ∧
     removePoint "user-1" "point-1" viewedState = viewedState ∧
     handleImageUpload "user-1" "point-1" ["f1"] (fun _ => some "up") viewedState
       = viewedState) :=
  ⟨by decide,
    non_owner_mutations_inert "user-1" viewedState ReportField.title "hack" "point-2"
      "point-1" { text := some "hack" } false ["f1"] (fun _ => some "up") (by decide)⟩

lemma mapAll_eq_none (oracle : String → Option String) (files : List String)
    (f : String) (hf : f ∈ files) (hnone : oracle f = none) :
    mapAll oracle files = none := by
  induction files with
  | nil => cases hf
  | cons a rest ih =>
      rcases List.mem_cons.mp hf with h | h
      · subst h
        simp [mapAll, hnone]
      · simp only [mapAll, ih h]
        cases oracle a <;> rfl

lemma find?_update_point (pid : String) (newPaths : List String) (l : List ReportPoint) :
    (l.map fun p => if p.id = pid then applyPatch { imagePaths := some newPaths } p else p).find?
        (fun p => p.id == pid) =
      (l.find? (fun p => p.id == pid)).map
        (fun p => applyPatch { imagePaths := some newPaths } p) := by
  induction l with
  | nil => rfl
  | cons a rest ih =>
      by_cases ha : a.id = pid
      · simp [List.find?_cons, ha, applyPatch]
      · simp [List.find?_cons, ha, ih]

/-- C8: for one multi-file upload action on a point, the point gets
exactly one image-list update, applied after all uploads complete and
appending every new path in order; when any single upload or compression
fails the whole batch is dropped and the editor state, hence the image
list of the point, is unchanged. -/
theorem batch_image_upload_atomic (uid pid : String) (files : List String)
    (oracle : String → Option String) (s : EditorState) (p : ReportPoint)
    (hown : s.localReport.userId = uid) (hne : files ≠ [])
    (hfind : s.localReport.points.find? (fun q => q.id == pid) = some p) :
    ((∃ f ∈ files, oracle f = none) → handleImageUpload uid pid files oracle s = s) ∧
    (∀ newPaths, mapAll oracle files = some newPaths →
      ∃ r1,
        (handleImageUpload uid pid files oracle s).updates = s.updates ++ [(r1, true)] ∧
        (handleImageUpload uid pid files oracle s).localReport = r1 ∧
        r1.points.find? (fun q => q.id == pid) =
          some { p with imagePaths := p.imagePaths ++ newPaths }) := by
  have hguard : ¬ (files = [] ∨ ¬ s.localReport.userId = uid) := by
    intro hcontra
    rcases hcontra with h | h
    · exact hne h
    · exact h hown
  constructor
  · rintro ⟨f, hf, hnone⟩
    simp only [handleImageUpload, if_neg hguard, hfind, mapAll_eq_none oracle files f hf hnone]
  · intro newPaths hmap
    refine ⟨{ s.localReport with
        points := s.localReport.points.map fun q =>
          if q.id = pid then applyPatch { imagePaths := some (p.imagePaths ++ newPaths) } q
          else q }, ?_, ?_, ?_⟩
    · simp only [handleImageUpload, if_neg hguard, hfind, hmap, updatePoint, if_pos hown,
        handleLocalUpdate, if_pos hown]
    · simp only [handleImageUpload, if_neg hguard, hfind, hmap, updatePoint, if_pos hown,
        handleLocalUpdate, if_pos hown]
    · rw [find?_update_point, hfind]
      simp [applyPatch]

/-- Editor state owned by the current viewer, with one point holding one
image already. -/
def ownedState : EditorState :=
  { localReport :=
      { id := "report-5", userId := "user-1", userEmail := some "me@example.com",
        title := "My report", area := "Center 1", createdAt := "2024-03-03",
        points := [{ id := "point-1", text := "note", imagePaths := ["img/old.jpg"] }] },
    updates := [] }

/-- Upload oracle on which every file succeeds. -/
def oracleOk : String → Option String := fun f => some ("up-" ++ f)

/-- Upload oracle on which the second file fails. -/
def oracleBad : String → Option String := fun f => if f = "f2" then none else some ("up-" ++ f)

/-- Witness for C8: a two-file batch on which both uploads succeed is
applied as one update appending both paths, and the same batch with one
failing upload leaves the state unchanged. -/
theorem batch_image_upload_atomic_witness :
    ownedState.localReport.userId = "user-1" ∧
    mapAll oracleOk ["f1", "f2"] = some ["up-f1", "up-f2"] ∧
    (∃ r1,
      (handleImageUpload "user-1" "point-1" ["f1", "f2"] oracleOk ownedState).updates =
        ownedState.updates ++ [(r1, true)] ∧
      (handleImageUpload "user-1" "point-1" ["f1", "f2"] oracleOk ownedState).localReport = r1 ∧
      r1.points.find? (fun q => q.id == "point-1") =
        some { id := "point-1", text := "note",
               imagePaths := ["img/old.jpg"] ++ ["up-f1", "up-f2"] }) ∧
    handleImageUpload "user-1" "point-1" ["f1", "f2"] oracleBad ownedState = ownedState :=
  ⟨by decide, by decide,
    (batch_image_upload_atomic "user-1" "point-1" ["f1", "f2"] oracleOk ownedState
        { id := "point-1", text := "note", imagePaths := ["img/old.jpg"] }
        (by decide) (by decide) (by decide)).2 ["up-f1", "up-f2"] (by decide),
    (batch_image_upload_atomic "user-1" "point-1" ["f1", "f2"] oracleBad ownedState
        { id := "point-1", text := "note", imagePaths := ["img/old.jpg"] }
        (by decide) (by decide) (by decide)).1 ⟨"f2", by decide, by decide⟩⟩

/-! ## PDF renderer layout (src/services/pdfService.ts, generatePdf)

The renderer tracks a running vertical cursor in millimetres on an A4
page with 20 mm margins. Text is measured through pdf.splitTextToSize,
which depends on font metrics of the jsPDF library; it is abstracted by
a measure oracle returning the wrapped line count. Image fetch plus
decode is abstracted by a fetch oracle returning the native pixel
dimensions, or none when the fetch or the decode rejects (the per-image
try-catch then emits the placeholder line). The emitted drawing
operations are recorded as an ordered block list. -/

inductive PdfBlock where
  | text (s : String)
  | image (path : String) (y width height : ℚ)
  | rule
  | pageBreak
deriving DecidableEq, Repr

/-- Cursor position and the drawing operations emitted so far. -/
structure PdfState where
  y : ℚ
  blocks : List PdfBlock
deriving DecidableEq, Repr

def A4_HEIGHT : ℚ := 297

def A4_WIDTH : ℚ := 210

def MARGIN_TOP : ℚ := 20

def MARGIN_BOTTOM : ℚ := 20

/-- Printable width: 210 minus the left and right margins. -/
def PRINTABLE_WIDTH : ℚ := 170

def LINE_HEIGHT : ℚ := 7 / 5

/-- Conversion factor 0.352778 from font points to millimetres. -/
def PT_TO_MM : ℚ := 352778 / 1000000

/-- Transcription of checkAndAddPage: force a new page when the next
block would overflow the printable height. -/
def checkAndAddPage (spaceNeeded : ℚ) (s : PdfState) : PdfState :=
  if s.y + spaceNeeded > A4_HEIGHT - MARGIN_BOTTOM then
    { y := MARGIN_TOP, blocks := s.blocks ++ [PdfBlock.pageBreak] }
  else s

/-- Transcription of addWrappedText: measure the wrapped block, break
the page if needed, draw, and advance the cursor. -/
def addWrappedText (measure : String → ℚ → Nat) (text : String) (fontSize : ℚ)
    (s : PdfState) : PdfState :=
  let blockHeight := (measure text fontSize : ℚ) * fontSize * PT_TO_MM * LINE_HEIGHT
  let s1 := checkAndAddPage blockHeight s
  { y := s1.y + blockHeight, blocks := s1.blocks ++ [PdfBlock.text text] }

/-- Placeholder line emitted when an image cannot be loaded. -/
def imgFailText : String := "[Image could not be loaded]"

/-- Transcription of the per-image body of generatePdf (lines 93-117):
on a successful fetch the image is scaled to sizePercent of the
printable width with preserved aspect ratio, moved to a fresh page when
it would overflow the remaining space while still fitting one printable
page, and drawn; on a failed fetch the placeholder line is emitted. -/
def pdfImageStep (measure : String → ℚ → Nat) (fetch : String → Option (ℚ × ℚ))
    (sizePercent : ℚ) (path : String) (s : PdfState) : PdfState :=
  match fetch path with
  | none => addWrappedText measure imgFailText 10 s
  | some (w, h) =>
      let desiredWidth := PRINTABLE_WIDTH * (sizePercent / 100)
      let aspectRatio := h / w
      let imgHeight := desiredWidth * aspectRatio
      let requiredSpace := imgHeight + 5
      let printablePageHeight := A4_HEIGHT - MARGIN_TOP - MARGIN_BOTTOM
      let s1 :=
        if s.y + requiredSpace > A4_HEIGHT - MARGIN_BOTTOM ∧
            requiredSpace ≤ printablePageHeight then
          { y := MARGIN_TOP, blocks := s.blocks ++ [PdfBlock.pageBreak] }
        else s
      { y := s1.y + requiredSpace,
        blocks := s1.blocks ++ [PdfBlock.image path s1.y desiredWidth imgHeight] }

/-- Image loop of one point, with the per-image size slider lookup
keyed by point id and image index (default 60 percent). -/
def pdfImages (measure : String → ℚ → Nat) (fetch : String → Option (ℚ × ℚ))
    (sizes : String → Option ℚ) (pid : String) :
    List String → Nat → PdfState → PdfState
  | [], _, s => s
  | path :: rest, i, s =>
      pdfImages measure fetch sizes pid rest (i + 1)
        (pdfImageStep measure fetch ((sizes (pid ++ "-" ++ toString i)).getD 60) path s)

/-- Divider drawn between consecutive points (lines 120-126). -/
def pdfDivider (s : PdfState) : PdfState :=
  let s1 := checkAndAddPage 10 s
  let s2 := { s1 with y := s1.y + 5 }
  let s3 := { s2 with blocks := s2.blocks ++ [PdfBlock.rule] }
  { s3 with y := s3.y + 5 }

/-- One iteration of the point loop (lines 86-118): heading, text, then
the images of the point. -/
def pdfPointStep (measure : String → ℚ → Nat) (fetch : String → Option (ℚ × ℚ))
    (sizes : String → Option ℚ) (idx : Nat) (p : ReportPoint) (s : PdfState) : PdfState :=
  let s1 := checkAndAddPage (14 * PT_TO_MM * LINE_HEIGHT) s
  let s2 := addWrappedText measure ("Point #" ++ toString (idx + 1)) 14 s1
  let s3 := { s2 with y := s2.y + 2 }
  let s4 := addWrappedText measure p.text 12 s3
  let s5 := { s4 with y := s4.y + 5 }
  pdfImages measure fetch sizes p.id p.imagePaths 0 s5

/-- Point loop of generatePdf, with the divider between points. -/
def pdfPoints (measure : String → ℚ → Nat) (fetch : String → Option (ℚ × ℚ))
    (sizes : String → Option ℚ) (total : Nat) :
    List ReportPoint → Nat → PdfState → PdfState
  | [], _, s => s
  | p :: rest, idx, s =>
      let s1 := pdfPointStep measure fetch sizes idx p s
      let s2 := if idx < total - 1 then pdfDivider s1 else s1
      pdfPoints measure fetch sizes total rest (idx + 1) s2

/-- Document header of generatePdf (lines 75-84): title, area, the
formatted creation date, and the horizontal rule. -/
def pdfHeader (measure : String → ℚ → Nat) (dateFmt : String → String) (r : Report)
    (s : PdfState) : PdfState :=
  let s1 := addWrappedText measure r.title 22 s
  let s2 := { s1 with y := s1.y + 4 }
  let s3 := addWrappedText measure r.area 16 s2
  let s4 := { s3 with y := s3.y + 2 }
  let s5 := addWrappedText measure ("Generated: " ++ dateFmt r.createdAt) 10 s4
  let s6 := { s5 with y := s5.y + 10 }
  let s7 := { s6 with blocks := s6.blocks ++ [PdfBlock.rule] }
  { s7 with y := s7.y + 10 }

/-- Ordered drawing operations of the whole PDF export of a report. -/
def genPdfBlocks (measure : String → ℚ → Nat) (fetch : String → Option (ℚ × ℚ))
    (sizes : String → Option ℚ) (dateFmt : String → String) (r : Report) : List PdfBlock :=
  (pdfPoints measure fetch sizes r.points.length r.points 0
    (pdfHeader measure dateFmt r { y := MARGIN_TOP, blocks := [] })).blocks

/-! ## DOCX renderer (src/services/docxService.ts, generateDocx)

The DOCX renderer emits paragraphs and images in document order and
leaves pagination to the format. Its per-image processImage helper
returns null on any fetch or decode failure and the image is then
omitted silently; a successful image is scaled down to the fixed 550
width cap with preserved aspect ratio. -/

inductive DocxChild where
  | para (text : String)
  | image (width height : ℚ)
deriving DecidableEq, Repr

def DOCX_MAX_WIDTH : ℚ := 550

/-- Transcription of processImage: none on failure, otherwise the image
scaled by min 1 (550 divided by the native width). -/
def processImage (fetch : String → Option (ℚ × ℚ)) (path : String) : Option DocxChild :=
  match fetch path with
  | none => none
  | some (w, h) =>
      let scale := min 1 (DOCX_MAX_WIDTH / w)
      some (DocxChild.image (w * scale) (h * scale))

/-- Point loop of generateDocx (lines 38-55): heading and text of each
point, then its surviving images in order. -/
def docxPointChildren (fetch : String → Option (ℚ × ℚ)) :
    List ReportPoint → Nat → List DocxChild
  | [], _ => []
  | p :: rest, i =>
      DocxChild.para ("Point #" ++ toString (i + 1)) :: DocxChild.para p.text ::
        (p.imagePaths.filterMap (processImage fetch) ++ docxPointChildren fetch rest (i + 1))

/-- Children of the single section of the DOCX document (lines 57-71). -/
def docxDocumentChildren (today : String) (fetch : String → Option (ℚ × ℚ))
    (r : Report) : List DocxChild :=
  DocxChild.para r.title :: DocxChild.para r.area ::
    DocxChild.para ("Generated: " ++ today) :: DocxChild.para "Report Points" ::
      docxPointChildren fetch r.points 0

/-- Projection of the emitted children to their paragraph texts. -/
def paraTexts : List DocxChild → List String
  | [] => []
  | DocxChild.para t :: rest => t :: paraTexts rest
  | DocxChild.image _ _ :: rest => paraTexts rest

/-- Expected paragraph texts of the point loop, independent of images. -/
def docxPointTexts : List ReportPoint → Nat → List String
  | [], _ => []
  | p :: rest, i => ("Point #" ++ toString (i + 1)) :: p.text :: docxPointTexts rest (i + 1)

/-- Trivial measure oracle: every text wraps to one line. -/
def measure1 : String → ℚ → Nat := fun _ _ => 1

/-- Fetch oracle returning a 17 times 26 pixel portrait bitmap, whose
height at 100 percent of the printable width is 260 mm, more than one
printable page. -/
def fetchTall : String → Option (ℚ × ℚ) := fun _ => some (17, 26)

/-- Cursor position 100 mm down the page. -/
def tallStart : PdfState := { y := 100, blocks := [] }

/-- Counterexample for C4 as stated: this image, scaled to 100 percent
of the printable width, is 260 mm tall and exceeds the 177 mm remaining
on the page, yet the renderer does not start it on a new page: because
its required space also exceeds one full printable page, the code keeps
it at the current cursor (y = 100) and emits no page break. -/
theorem oversized_image_counterexample :
    PRINTABLE_WIDTH * ((26 : ℚ) / 17) > (A4_HEIGHT - MARGIN_BOTTOM) - tallStart.y ∧
    pdfImageStep measure1 fetchTall 100 "img/tall.jpg" tallStart =
      { y := 100 + (260 + 5), blocks := [PdfBlock.image "img/tall.jpg" 100 170 260] } ∧
    PdfBlock.pageBreak ∉ (pdfImageStep measure1 fetchTall 100 "img/tall.jpg" tallStart).blocks := by
  have hstep : pdfImageStep measure1 fetchTall 100 "img/tall.jpg" tallStart =
      { y := 100 + (260 + 5), blocks := [PdfBlock.image "img/tall.jpg" 100 170 260] } := by
    simp only [pdfImageStep, fetchTall]
    rw [if_neg]
    · simp only [tallStart]
      norm_num [PRINTABLE_WIDTH]
    · rintro ⟨-, hfit⟩
      norm_num [PRINTABLE_WIDTH, A4_HEIGHT, MARGIN_TOP, MARGIN_BOTTOM] at hfit
  refine ⟨?_, hstep, ?_⟩
  · norm_num [PRINTABLE_WIDTH, A4_HEIGHT, MARGIN_BOTTOM, tallStart]
  · rw [hstep]
    simp

/-- C4 amended: at 100 percent of the printable width, an image whose
required space (scaled height plus 5 mm spacing) overflows the space
remaining on the current page is started at the top of a new page,
provided that required space fits within one printable page; an image
whose required space exceeds a full printable page is drawn at the
current cursor with no page break (and is not split either, it simply
overflows); an image that fits the remaining space is drawn in place.
The pixel dimensions w, h and the cursor y are integers and the page
conditions are stated cross-multiplied by w. -/
theorem image_page_break_amended (m : String → ℚ → Nat)
    (fetch : String → Option (ℚ × ℚ)) (path : String) (blocks : List PdfBlock)
    (y w h : ℕ) (hf : fetch path = some ((w : ℚ), (h : ℚ))) (hw : 0 < w) :
    (277 * w < y * w + 170 * h + 5 * w → 170 * h ≤ 252 * w →
      ∃ dw ih, dw = 170 ∧ ih * (w : ℚ) = 170 * (h : ℚ) ∧
        pdfImageStep m fetch 100 path { y := (y : ℚ), blocks := blocks } =
          { y := MARGIN_TOP + (ih + 5),
            blocks := blocks ++ [PdfBlock.pageBreak, PdfBlock.image path MARGIN_TOP dw ih] }) ∧
    (252 * w < 170 * h →
      ∃ dw ih, dw = 170 ∧ ih * (w : ℚ) = 170 * (h : ℚ) ∧
        pdfImageStep m fetch 100 path { y := (y : ℚ), blocks := blocks } =
          { y := (y : ℚ) + (ih + 5),
            blocks := blocks ++ [PdfBlock.image path (y : ℚ) dw ih] }) ∧
    (y * w + 170 * h + 5 * w ≤ 277 * w →
      ∃ dw ih, dw = 170 ∧ ih * (w : ℚ) = 170 * (h : ℚ) ∧
        pdfImageStep m fetch 100 path { y := (y : ℚ), blocks := blocks } =
          { y := (y : ℚ) + (ih + 5),
            blocks := blocks ++ [PdfBlock.image path (y : ℚ) dw ih] }) := by
  have hW : (0 : ℚ) < (w : ℚ) := by exact_mod_cast hw
  have hsimp : PRINTABLE_WIDTH * ((100 : ℚ) / 100) * ((h : ℚ) / (w : ℚ)) =
      170 * (h : ℚ) / (w : ℚ) := by
    rw [mul_div_assoc]
    norm_num [PRINTABLE_WIDTH]
  have hconst1 : A4_HEIGHT - MARGIN_BOTTOM = (277 : ℚ) := by
    norm_num [A4_HEIGHT, MARGIN_BOTTOM]
  have hconst2 : A4_HEIGHT - MARGIN_TOP - MARGIN_BOTTOM = (257 : ℚ) := by
    norm_num [A4_HEIGHT, MARGIN_TOP, MARGIN_BOTTOM]
  have hdw : PRINTABLE_WIDTH * ((100 : ℚ) / 100) = 170 := by
    norm_num [PRINTABLE_WIDTH]
  have hih : PRINTABLE_WIDTH * ((100 : ℚ) / 100) * ((h : ℚ) / (w : ℚ)) * (w : ℚ) =
      170 * (h : ℚ) := by
    rw [hsimp]
    field_simp
  refine ⟨?_, ?_, ?_⟩
  · intro hbig hfit
    have hbigQ : (277 : ℚ) * w < (y : ℚ) * w + 170 * h + 5 * w := by exact_mod_cast hbig
    have hfitQ : (170 : ℚ) * h ≤ 252 * w := by exact_mod_cast hfit
    have hA : (y : ℚ) + (PRINTABLE_WIDTH * ((100 : ℚ) / 100) * ((h : ℚ) / (w : ℚ)) + 5) >
        A4_HEIGHT - MARGIN_BOTTOM := by
      rw [hsimp, hconst1, gt_iff_lt]
      have hkey : (277 : ℚ) - (y : ℚ) - 5 < 170 * (h : ℚ) / (w : ℚ) := by
        rw [lt_div_iff₀ hW]
        nlinarith
      linarith
    have hB : PRINTABLE_WIDTH * ((100 : ℚ) / 100) * ((h : ℚ) / (w : ℚ)) + 5 ≤
        A4_HEIGHT - MARGIN_TOP - MARGIN_BOTTOM := by
      rw [hsimp, hconst2]
      have hkey : 170 * (h : ℚ) / (w : ℚ) ≤ 252 := by
        rw [div_le_iff₀ hW]
        nlinarith
      linarith
    refine ⟨PRINTABLE_WIDTH * ((100 : ℚ) / 100),
      PRINTABLE_WIDTH * ((100 : ℚ) / 100) * ((h : ℚ) / (w : ℚ)), hdw, hih, ?_⟩
    simp only [pdfImageStep, hf]
    rw [if_pos ⟨hA, hB⟩, List.append_assoc]
    rfl
  · intro hnofit
    have hnofitQ : (252 : ℚ) * w < 170 * h := by exact_mod_cast hnofit
    have hnB : ¬ ((y : ℚ) + (PRINTABLE_WIDTH * ((100 : ℚ) / 100) * ((h : ℚ) / (w : ℚ)) + 5) >
        A4_HEIGHT - MARGIN_BOTTOM ∧
        PRINTABLE_WIDTH * ((100 : ℚ) / 100) * ((h : ℚ) / (w : ℚ)) + 5 ≤
          A4_HEIGHT - MARGIN_TOP - MARGIN_BOTTOM) := by
      rintro ⟨-, hB⟩
      rw [hsimp, hconst2] at hB
      have hle : 170 * (h : ℚ) / (w : ℚ) ≤ 252 := by linarith
      rw [div_le_iff₀ hW] at hle
      nlinarith
    refine ⟨PRINTABLE_WIDTH * ((100 : ℚ) / 100),
      PRINTABLE_WIDTH * ((100 : ℚ) / 100) * ((h : ℚ) / (w : ℚ)), hdw, hih, ?_⟩
    simp only [pdfImageStep, hf]
    rw [if_neg hnB]
  · intro hsmall
    have hsmallQ : (y : ℚ) * w + 170 * h + 5 * w ≤ 277 * w := by exact_mod_cast hsmall
    have hnA : ¬ ((y : ℚ) + (PRINTABLE_WIDTH * ((100 : ℚ) / 100) * ((h : ℚ) / (w : ℚ)) + 5) >
        A4_HEIGHT - MARGIN_BOTTOM ∧
        PRINTABLE_WIDTH * ((100 : ℚ) / 100) * ((h : ℚ) / (w : ℚ)) + 5 ≤
          A4_HEIGHT - MARGIN_TOP - MARGIN_BOTTOM) := by
      rintro ⟨hA, -⟩
      rw [hsimp, hconst1, gt_iff_lt] at hA
      have hlt : (277 : ℚ) - (y : ℚ) - 5 < 170 * (h : ℚ) / (w : ℚ) := by linarith
      rw [lt_div_iff₀ hW] at hlt
      nlinarith
    refine ⟨PRINTABLE_WIDTH * ((100 : ℚ) / 100),
      PRINTABLE_WIDTH * ((100 : ℚ) / 100) * ((h : ℚ) / (w : ℚ)), hdw, hih, ?_⟩
    simp only [pdfImageStep, hf]
    rw [if_neg hnA]

/-- Fetch oracle returning a square 100 times 100 pixel bitmap. -/
def fetchWide : String → Option (ℚ × ℚ) :=
  fun p => if p = "img/wide.jpg" then some (((100 : ℕ) : ℚ), ((100 : ℕ) : ℚ)) else none

/-- Witness for C4 amended: a square image at 100 percent (170 mm tall)
with the cursor at 200 mm overflows the remaining space, fits one
printable page, and is started at the top of a new page. -/
theorem image_page_break_amended_witness :
    0 < 100 ∧ 277 * 100 < 200 * 100 + 170 * 100 + 5 * 100 ∧ 170 * 100 ≤ 252 * 100 ∧
    (∃ dw ih, dw = 170 ∧ ih * ((100 : ℕ) : ℚ) = 170 * ((100 : ℕ) : ℚ) ∧
      pdfImageStep measure1 fetchWide 100 "img/wide.jpg"
          { y := ((200 : ℕ) : ℚ), blocks := [] } =
        { y := MARGIN_TOP + (ih + 5),
          blocks := [] ++ [PdfBlock.pageBreak,
            PdfBlock.image "img/wide.jpg" MARGIN_TOP dw ih] }) :=
  ⟨by decide, by decide, by decide,
    (image_page_break_amended measure1 fetchWide "img/wide.jpg" [] 200 100 100 rfl
        (by decide)).1 (by decide) (by decide)⟩

lemma checkAndAddPage_blocks (c : ℚ) (s : PdfState) :
    ∃ l, (checkAndAddPage c s).blocks = s.blocks ++ l := by
  unfold checkAndAddPage
  split_ifs
  · exact ⟨[PdfBlock.pageBreak], rfl⟩
  · exact ⟨[], (List.append_nil _).symm⟩

lemma addWrappedText_blocks (m : String → ℚ → Nat) (t : String) (fs : ℚ) (s : PdfState) :
    ∃ l, (addWrappedText m t fs s).blocks = s.blocks ++ l ∧ PdfBlock.text t ∈ l := by
  obtain ⟨l0, hl0⟩ := checkAndAddPage_blocks ((m t fs : ℚ) * fs * PT_TO_MM * LINE_HEIGHT) s
  refine ⟨l0 ++ [PdfBlock.text t], ?_, by simp⟩
  show (checkAndAddPage ((m t fs : ℚ) * fs * PT_TO_MM * LINE_HEIGHT) s).blocks ++
      [PdfBlock.text t] = _
  rw [hl0, List.append_assoc]

lemma pdfImageStep_blocks (m : String → ℚ → Nat) (fetch : String → Option (ℚ × ℚ))
    (sp : ℚ) (path : String) (s : PdfState) :
    ∃ l, (pdfImageStep m fetch sp path s).blocks = s.blocks ++ l ∧
      (fetch path = none → PdfBlock.text imgFailText ∈ l) ∧
      (∀ wq hq, fetch path = some (wq, hq) →
        ∃ yq dw ihh, PdfBlock.image path yq dw ihh ∈ l) := by
  cases hfp : fetch path with
  | none =>
      obtain ⟨l, hl, hm⟩ := addWrappedText_blocks m imgFailText 10 s
      refine ⟨l, ?_, fun _ => hm, fun wq hq hcontra => ?_⟩
      · simp only [pdfImageStep, hfp]
        exact hl
      · exact Option.noConfusion hcontra
  | some wh =>
      obtain ⟨wq, hq⟩ := wh
      simp only [pdfImageStep, hfp]
      split_ifs with hcond
      · refine ⟨[PdfBlock.pageBreak,
          PdfBlock.image path MARGIN_TOP (PRINTABLE_WIDTH * (sp / 100))
            (PRINTABLE_WIDTH * (sp / 100) * (hq / wq))], ?_, ?_, ?_⟩
        · rw [List.append_assoc]
          rfl
        · intro hc
          exact hc.elim
        · intro w2 h2 _
          exact ⟨MARGIN_TOP, PRINTABLE_WIDTH * (sp / 100),
            PRINTABLE_WIDTH * (sp / 100) * (hq / wq), by simp⟩
      · refine ⟨[PdfBlock.image path s.y (PRINTABLE_WIDTH * (sp / 100))
            (PRINTABLE_WIDTH * (sp / 100) * (hq / wq))], rfl, ?_, ?_⟩
        · intro hc
          exact hc.elim
        · intro w2 h2 _
          exact ⟨s.y, PRINTABLE_WIDTH * (sp / 100),
            PRINTABLE_WIDTH * (sp / 100) * (hq / wq), by simp⟩

lemma pdfImages_blocks (m : String → ℚ → Nat) (fetch : String → Option (ℚ × ℚ))
    (sizes : String → Option ℚ) (pid : String) :
    ∀ (paths : List String) (i : Nat) (s : PdfState),
      ∃ l, (pdfImages m fetch sizes pid paths i s).blocks = s.blocks ++ l ∧
        ∀ path ∈ paths,
          (fetch path = none → PdfBlock.text imgFailText ∈ l) ∧
          (∀ wq hq, fetch path = some (wq, hq) →
            ∃ yq dw ihh, PdfBlock.image path yq dw ihh ∈ l) := by
  intro paths
  induction paths with
  | nil =>
      intro i s
      exact ⟨[], (List.append_nil _).symm, by simp⟩
  | cons a rest ih =>
      intro i s
      obtain ⟨l1, hl1, h1none, h1some⟩ :=
        pdfImageStep_blocks m fetch ((sizes (pid ++ "-" ++ toString i)).getD 60) a s
      obtain ⟨l2, hl2, h2⟩ :=
        ih (i + 1) (pdfImageStep m fetch ((sizes (pid ++ "-" ++ toString i)).getD 60) a s)
      refine ⟨l1 ++ l2, ?_, ?_⟩
      · show (pdfImages m fetch sizes pid rest (i + 1)
            (pdfImageStep m fetch ((sizes (pid ++ "-" ++ toString i)).getD 60) a s)).blocks = _
        rw [hl2, hl1, List.append_assoc]
      · intro path hpath
        rcases List.mem_cons.mp hpath with heq | hmem
        · subst heq
          refine ⟨fun hn => List.mem_append_left _ (h1none hn), fun wq hq hs => ?_⟩
          obtain ⟨yq, dw, ihh, hm2⟩ := h1some wq hq hs
          exact ⟨yq, dw, ihh, List.mem_append_left _ hm2⟩
        · obtain ⟨h2none, h2some⟩ := h2 path hmem
          refine ⟨fun hn => List.mem_append_right _ (h2none hn), fun wq hq hs => ?_⟩
          obtain ⟨yq, dw, ihh, hm2⟩ := h2some wq hq hs
          exact ⟨yq, dw, ihh, List.mem_append_right _ hm2⟩

lemma pdfDivider_blocks (s : PdfState) :
    ∃ l, (pdfDivider s).blocks = s.blocks ++ l := by
  obtain ⟨la, hla⟩ := checkAndAddPage_blocks 10 s
  refine ⟨la ++ [PdfBlock.rule], ?_⟩
  show (checkAndAddPage 10 s).blocks ++ [PdfBlock.rule] = _
  rw [hla, List.append_assoc]

lemma pdfPointStep_blocks (m : String → ℚ → Nat) (fetch : String → Option (ℚ × ℚ))
    (sizes : String → Option ℚ) (idx : Nat) (p : ReportPoint) (s : PdfState) :
    ∃ l, (pdfPointStep m fetch sizes idx p s).blocks = s.blocks ++ l ∧
      PdfBlock.text ("Point #" ++ toString (idx + 1)) ∈ l ∧
      ∀ path ∈ p.imagePaths,
        (fetch path = none → PdfBlock.text imgFailText ∈ l) ∧
        (∀ wq hq, fetch path = some (wq, hq) →
          ∃ yq dw ihh, PdfBlock.image path yq dw ihh ∈ l) := by
  obtain ⟨la, hla⟩ := checkAndAddPage_blocks (14 * PT_TO_MM * LINE_HEIGHT) s
  obtain ⟨lb, hlb, hmb⟩ := addWrappedText_blocks m ("Point #" ++ toString (idx + 1)) 14
    (checkAndAddPage (14 * PT_TO_MM * LINE_HEIGHT) s)
  obtain ⟨lc, hlc, -⟩ := addWrappedText_blocks m p.text 12
    { addWrappedText m ("Point #" ++ toString (idx + 1)) 14
        (checkAndAddPage (14 * PT_TO_MM * LINE_HEIGHT) s) with
      y := (addWrappedText m ("Point #" ++ toString (idx + 1)) 14
        (checkAndAddPage (14 * PT_TO_MM * LINE_HEIGHT) s)).y + 2 }
  obtain ⟨ld, hld, hd⟩ := pdfImages_blocks m fetch sizes p.id p.imagePaths 0
    { addWrappedText m p.text 12
        { addWrappedText m ("Point #" ++ toString (idx + 1)) 14
            (checkAndAddPage (14 * PT_TO_MM * LINE_HEIGHT) s) with
          y := (addWrappedText m ("Point #" ++ toString (idx + 1)) 14
            (checkAndAddPage (14 * PT_TO_MM * LINE_HEIGHT) s)).y + 2 } with
      y := (addWrappedText m p.text 12
        { addWrappedText m ("Point #" ++ toString (idx + 1)) 14
            (checkAndAddPage (14 * PT_TO_MM * LINE_HEIGHT) s) with
          y := (addWrappedText m ("Point #" ++ toString (idx + 1)) 14
            (checkAndAddPage (14 * PT_TO_MM * LINE_HEIGHT) s)).y + 2 }).y + 5 }
  refine ⟨la ++ (lb ++ (lc ++ ld)), ?_, ?_, ?_⟩
  · show (pdfImages m fetch sizes p.id p.imagePaths 0 _).blocks = _
    rw [hld]
    show (addWrappedText m p.text 12 _).blocks ++ ld = _
    rw [hlc]
    show ((addWrappedText m ("Point #" ++ toString (idx + 1)) 14 _).blocks ++ lc) ++ ld = _
    rw [hlb, hla]
    simp [List.append_assoc]
  · exact List.mem_append_right _ (List.mem_append_left _ hmb)
  · intro path hpath
    obtain ⟨hn, hsome⟩ := hd path hpath
    refine ⟨fun hnn => List.mem_append_right _ (List.mem_append_right _
      (List.mem_append_right _ (hn hnn))), fun wq hq hs => ?_⟩
    obtain ⟨yq, dw, ihh, hm2⟩ := hsome wq hq hs
    exact ⟨yq, dw, ihh, List.mem_append_right _ (List.mem_append_right _
      (List.mem_append_right _ hm2))⟩

lemma pdfPoints_blocks (m : String → ℚ → Nat) (fetch : String → Option (ℚ × ℚ))
    (sizes : String → Option ℚ) (total : Nat) :
    ∀ (ps : List ReportPoint) (idx : Nat) (s : PdfState),
      ∃ l, (pdfPoints m fetch sizes total ps idx s).blocks = s.blocks ++ l ∧
        (∀ j, j < ps.length → PdfBlock.text ("Point #" ++ toString (idx + j + 1)) ∈ l) ∧
        (∀ p ∈ ps, ∀ path ∈ p.imagePaths,
          (fetch path = none → PdfBlock.text imgFailText ∈ l) ∧
          (∀ wq hq, fetch path = some (wq, hq) →
            ∃ yq dw ihh, PdfBlock.image path yq dw ihh ∈ l)) := by
  intro ps
  induction ps with
  | nil =>
      intro idx s
      exact ⟨[], (List.append_nil _).symm, by simp, by simp⟩
  | cons p rest ih =>
      intro idx s
      obtain ⟨l1, hl1, hhdr, himg⟩ := pdfPointStep_blocks m fetch sizes idx p s
      have hdiv : ∃ l2, (if idx < total - 1 then pdfDivider (pdfPointStep m fetch sizes idx p s)
          else pdfPointStep m fetch sizes idx p s).blocks =
          (pdfPointStep m fetch sizes idx p s).blocks ++ l2 := by
        split_ifs
        · exact pdfDivider_blocks _
        · exact ⟨[], (List.append_nil _).symm⟩
      obtain ⟨l2, hl2⟩ := hdiv
      obtain ⟨l3, hl3, hh3, hi3⟩ := ih (idx + 1)
        (if idx < total - 1 then pdfDivider (pdfPointStep m fetch sizes idx p s)
         else pdfPointStep m fetch sizes idx p s)
      refine ⟨l1 ++ (l2 ++ l3), ?_, ?_, ?_⟩
      · show (pdfPoints m fetch sizes total rest (idx + 1) _).blocks = _
        rw [hl3, hl2, hl1]
        simp [List.append_assoc]
      · intro j hj
        cases j with
        | zero =>
            have harith : idx + 0 + 1 = idx + 1 := by omega
            rw [harith]
            exact List.mem_append_left _ hhdr
        | succ j2 =>
            have hj2 : j2 < rest.length := by simpa using hj
            have hmem := hh3 j2 hj2
            have harith : idx + 1 + j2 + 1 = idx + (j2 + 1) + 1 := by omega
            rw [harith] at hmem
            exact List.mem_append_right _ (List.mem_append_right _ hmem)
      · intro q hq path hpath
        rcases List.mem_cons.mp hq with heq | hmem
        · subst heq
          obtain ⟨hn, hsome⟩ := himg path hpath
          refine ⟨fun hnn => List.mem_append_left _ (hn hnn), fun wq hq2 hs2 => ?_⟩
          obtain ⟨yq, dw, ihh, hm2⟩ := hsome wq hq2 hs2
          exact ⟨yq, dw, ihh, List.mem_append_left _ hm2⟩
        · obtain ⟨hn, hsome⟩ := hi3 q hmem path hpath
          refine ⟨fun hnn => List.mem_append_right _ (List.mem_append_right _ (hn hnn)),
            fun wq hq2 hs2 => ?_⟩
          obtain ⟨yq, dw, ihh, hm2⟩ := hsome wq hq2 hs2
          exact ⟨yq, dw, ihh, List.mem_append_right _ (List.mem_append_right _ hm2)⟩

lemma paraTexts_append (a b : List DocxChild) :
    paraTexts (a ++ b) = paraTexts a ++ paraTexts b := by
  induction a with
  | nil => rfl
  | cons c rest ih => cases c <;> simp [paraTexts, ih]

lemma paraTexts_filterMap (fetch : String → Option (ℚ × ℚ)) (paths : List String) :
    paraTexts (paths.filterMap (processImage fetch)) = [] := by
  induction paths with
  | nil => rfl
  | cons a rest ih =>
      cases hf : fetch a with
      | none => simp [List.filterMap_cons, processImage, hf, ih]
      | some wh => simp [List.filterMap_cons, processImage, hf, paraTexts, ih]

lemma docx_texts (fetch : String → Option (ℚ × ℚ)) :
    ∀ (ps : List ReportPoint) (i : Nat),
      paraTexts (docxPointChildren fetch ps i) = docxPointTexts ps i := by
  intro ps
  induction ps with
  | nil => intro i; rfl
  | cons p rest ih =>
      intro i
      simp [docxPointChildren, docxPointTexts, paraTexts, paraTexts_append,
        paraTexts_filterMap, ih]

/-- C6: for every report export in which fetching or decoding some image
fails, both renderers skip that image and continue. The PDF renderer
emits every point heading, a placeholder line for each failed image and
an image block for each successful one; the DOCX renderer keeps the full
paragraph stream of every point (independently of any image failure) and
its per-image helper returns nothing for a failed path, omitting it
silently. -/
theorem export_skips_failed_images (measure : String → ℚ → Nat)
    (fetch : String → Option (ℚ × ℚ)) (sizes : String → Option ℚ)
    (dateFmt : String → String) (today : String) (r : Report) :
    (∀ j, j < r.points.length →
      PdfBlock.text ("Point #" ++ toString (j + 1)) ∈
        genPdfBlocks measure fetch sizes dateFmt r) ∧
    (∀ p ∈ r.points, ∀ path ∈ p.imagePaths, fetch path = none →
      PdfBlock.text imgFailText ∈ genPdfBlocks measure fetch sizes dateFmt r) ∧
    (∀ p ∈ r.points, ∀ path ∈ p.imagePaths, ∀ wq hq, fetch path = some (wq, hq) →
      ∃ yq dw ihh, PdfBlock.image path yq dw ihh ∈
        genPdfBlocks measure fetch sizes dateFmt r) ∧
    paraTexts (docxDocumentChildren today fetch r) =
      r.title :: r.area :: ("Generated: " ++ today) :: "Report Points" ::
        docxPointTexts r.points 0 ∧
    (∀ path, fetch path = none → processImage fetch path = none) := by
  obtain ⟨l, hl, hh, hi⟩ := pdfPoints_blocks measure fetch sizes r.points.length r.points 0
    (pdfHeader measure dateFmt r { y := MARGIN_TOP, blocks := [] })
  have hblocks : genPdfBlocks measure fetch sizes dateFmt r =
      (pdfHeader measure dateFmt r { y := MARGIN_TOP, blocks := [] }).blocks ++ l := by
    unfold genPdfBlocks
    exact hl
  refine ⟨?_, ?_, ?_, ?_, ?_⟩
  · intro j hj
    rw [hblocks]
    have hmem := hh j hj
    have harith : 0 + j + 1 = j + 1 := by omega
    rw [harith] at hmem
    exact List.mem_append_right _ hmem
  · intro p hp path hpath hnone
    rw [hblocks]
    exact List.mem_append_right _ ((hi p hp path hpath).1 hnone)
  · intro p hp path hpath wq hq hsome
    obtain ⟨yq, dw, ihh, hm2⟩ := (hi p hp path hpath).2 wq hq hsome
    exact ⟨yq, dw, ihh, by rw [hblocks]; exact List.mem_append_right _ hm2⟩
  · simp [docxDocumentChildren, paraTexts, docx_texts]
  · intro path hnone
    simp [processImage, hnone]

/-- Fetch oracle on which one image path fails and another succeeds. -/
def fetchMixed : String → Option (ℚ × ℚ) :=
  fun p => if p = "img/good.jpg" then some (((4 : ℕ) : ℚ), ((3 : ℕ) : ℚ)) else none

/-- First point of the witness report, with a failing and a good image. -/
def pointC6a : ReportPoint :=
  { id := "p1", text := "first", imagePaths := ["img/bad.jpg", "img/good.jpg"] }

/-- Second point of the witness report. -/
def pointC6b : ReportPoint :=
  { id := "p2", text := "second", imagePaths := [] }

/-- Report used by the export witness. -/
def reportC6 : Report :=
  { id := "report-7", userId := "user-1", userEmail := none, title := "T", area := "A",
    createdAt := "2024-05-05", points := [pointC6a, pointC6b] }

/-- Witness for C6: with one failing image, the PDF still contains the
heading of the second point, the placeholder for the failed image and an
image block for the good one, and the DOCX paragraph stream is the full
expected one. -/
theorem export_skips_failed_images_witness :
    1 < reportC6.points.length ∧
    fetchMixed "img/bad.jpg" = none ∧
    PdfBlock.text ("Point #" ++ toString (1 + 1)) ∈
      genPdfBlocks measure1 fetchMixed (fun _ => none) (fun d => d) reportC6 ∧
    PdfBlock.text imgFailText ∈
      genPdfBlocks measure1 fetchMixed (fun _ => none) (fun d => d) reportC6 ∧
    (∃ yq dw ihh, PdfBlock.image "img/good.jpg" yq dw ihh ∈
      genPdfBlocks measure1 fetchMixed (fun _ => none) (fun d => d) reportC6) ∧
    paraTexts (docxDocumentChildren "2024-06-06" fetchMixed reportC6) =
      reportC6.title :: reportC6.area :: ("Generated: " ++ "2024-06-06") ::
        "Report Points" :: docxPointTexts reportC6.points 0 :=
  ⟨by decide, rfl,
    (export_skips_failed_images measure1 fetchMixed (fun _ => none) (fun d => d)
        "2024-06-06" reportC6).1 1 (by decide),
    (export_skips_failed_images measure1 fetchMixed (fun _ => none) (fun d => d)
        "2024-06-06" reportC6).2.1 pointC6a (by decide) "img/bad.jpg" (by decide) rfl,
    (export_skips_failed_images measure1 fetchMixed (fun _ => none) (fun d => d)
        "2024-06-06" reportC6).2.2.1 pointC6a (by decide) "img/good.jpg" (by decide)
        ((4 : ℕ) : ℚ) ((3 : ℕ) : ℚ) rfl,
    (export_skips_failed_images measure1 fetchMixed (fun _ => none) (fun d => d)
        "2024-06-06" reportC6).2.2.2.1⟩

end VisitReport
